import Mathlib

/-!
Verification of the calculator state machine of `src/src/App.tsx`
(sdb-workshop-calculator).

The whole decision logic of the program is the `reducer` function
(`src/src/App.tsx`, lines 87-168) over the `State` record (lines 17-32),
together with the arithmetic table `calcOperations` (lines 76-84), the
type guard `isCalcAction` (lines 70-74) and `initialState` (lines 62-68).
We embed those shallowly below and prove the spec's claims about them.

JavaScript numbers are modelled by `JSNum`: an exact rational (`CalcRat`,
a fraction kept in lowest terms with positive denominator) together with
the special values `NaN`, `+Infinity` and `-Infinity`.  Arithmetic on the
rational component is exact (no rounding to 64-bit doubles) and the model
identifies `-0` with `0`; every scenario in the claims stays inside
exactly representable values, where the model and IEEE-754 agree.
Number-to-string conversion prints the (possibly truncated at 100 digits)
decimal expansion and never uses exponent notation, which agrees with
JavaScript's `toString` on all finite-decimal values of moderate size;
`jsParseFloat` models `parseFloat`: optional sign, an `Infinity` literal,
then the longest prefix of digits, an optional dot and more digits,
yielding `NaN` when no digit is found.
-/

/-- Greatest common divisor with explicit structural fuel, so that the
kernel can evaluate it on concrete inputs (same recursion as `Nat.gcd`). -/
def natGcdF : Nat → Nat → Nat → Nat
  | 0, _, n => n
  | Nat.succ fuel, m, n => if m = 0 then n else natGcdF fuel (n % m) m

/-- Greatest common divisor; `m + 1` units of fuel suffice because the
first argument strictly decreases on every recursive call. -/
def natGcd (m n : Nat) : Nat := natGcdF (m + 1) m n

/-- An exact rational: numerator and (positive) denominator.  All values
built by the operations below are in lowest terms, so the derived
structural equality agrees with equality of the denoted rationals on
them. -/
structure CalcRat where
  num : Int
  den : Nat
deriving DecidableEq, Repr

namespace CalcRat

/-- Build the rational `n / d` in lowest terms (`d = 0` never arises from
the operations below; it is mapped to `0` for totality). -/
def make (n : Int) (d : Nat) : CalcRat :=
  if d = 0 then ⟨0, 1⟩
  else
    let g := natGcd n.natAbs d
    ⟨n / (g : Int), d / g⟩

/-- Build `n / d` for an integer denominator, moving its sign to the
numerator. -/
def mkInt (n d : Int) : CalcRat :=
  if d < 0 then make (-n) (-d).toNat else make n d.toNat

/-- The rational denoted by a natural number. -/
def ofNat (n : Nat) : CalcRat := ⟨(n : Int), 1⟩

/-- Exact rational addition. -/
def add (p q : CalcRat) : CalcRat :=
  make (p.num * (q.den : Int) + q.num * (p.den : Int)) (p.den * q.den)

/-- Exact rational negation (preserves lowest terms). -/
def neg (p : CalcRat) : CalcRat := ⟨-p.num, p.den⟩

/-- Exact rational subtraction. -/
def sub (p q : CalcRat) : CalcRat := p.add q.neg

/-- Exact rational multiplication. -/
def mul (p q : CalcRat) : CalcRat := make (p.num * q.num) (p.den * q.den)

/-- Exact rational division (callers guard against a zero divisor). -/
def div (p q : CalcRat) : CalcRat := mkInt (p.num * (q.den : Int)) ((p.den : Int) * q.num)

end CalcRat

/-- Model of a JavaScript number: an exact rational or one of the
IEEE-754 special values.  `-0` is identified with `0`. -/
inductive JSNum where
  | nan : JSNum
  | posInf : JSNum
  | negInf : JSNum
  | num : CalcRat → JSNum
deriving DecidableEq, Repr

namespace JSNum

/-- JavaScript truthiness of a number: `0`, `-0` and `NaN` are falsy,
everything else is truthy.  Models the `!previousState.calculatedValue`
test on line 127 of `src/src/App.tsx`. -/
def isTruthy : JSNum → Bool
  | .num q => if q.num = 0 then false else true
  | .nan => false
  | .posInf => true
  | .negInf => true

/-- IEEE-754 addition on the model (`a + b`, line 80). -/
def add : JSNum → JSNum → JSNum
  | .nan, _ => .nan
  | _, .nan => .nan
  | .posInf, .negInf => .nan
  | .negInf, .posInf => .nan
  | .posInf, _ => .posInf
  | _, .posInf => .posInf
  | .negInf, _ => .negInf
  | _, .negInf => .negInf
  | .num a, .num b => .num (a.add b)

/-- IEEE-754 negation on the model. -/
def neg : JSNum → JSNum
  | .nan => .nan
  | .posInf => .negInf
  | .negInf => .posInf
  | .num q => .num q.neg

/-- IEEE-754 subtraction on the model (`a - b`, line 81). -/
def sub (a b : JSNum) : JSNum := a.add b.neg

/-- IEEE-754 multiplication on the model (`a * b`, line 82). -/
def mul : JSNum → JSNum → JSNum
  | .nan, _ => .nan
  | _, .nan => .nan
  | .posInf, .posInf => .posInf
  | .posInf, .negInf => .negInf
  | .negInf, .posInf => .negInf
  | .negInf, .negInf => .posInf
  | .posInf, .num q => if q.num = 0 then .nan else if 0 < q.num then .posInf else .negInf
  | .num q, .posInf => if q.num = 0 then .nan else if 0 < q.num then .posInf else .negInf
  | .negInf, .num q => if q.num = 0 then .nan else if 0 < q.num then .negInf else .posInf
  | .num q, .negInf => if q.num = 0 then .nan else if 0 < q.num then .negInf else .posInf
  | .num a, .num b => .num (a.mul b)

/-- IEEE-754 division on the model (`a / b`, line 83): division by zero
yields a signed infinity (`0 / 0` yields `NaN`), never an error. -/
def div : JSNum → JSNum → JSNum
  | .nan, _ => .nan
  | _, .nan => .nan
  | .posInf, .posInf => .nan
  | .posInf, .negInf => .nan
  | .negInf, .posInf => .nan
  | .negInf, .negInf => .nan
  | .posInf, .num q => if 0 ≤ q.num then .posInf else .negInf
  | .negInf, .num q => if 0 ≤ q.num then .negInf else .posInf
  | .num _, .posInf => .num (.ofNat 0)
  | .num _, .negInf => .num (.ofNat 0)
  | .num a, .num b =>
      if b.num = 0 then
        if a.num = 0 then .nan else if 0 < a.num then .posInf else .negInf
      else .num (a.div b)

end JSNum

/-- The decimal digits of the fractional part `f` (with `0 ≤ f < 1`),
emitted most significant first; `fuel` bounds the number of digits, so
non-terminating expansions are truncated (JavaScript would print the
shortest double representation instead; no claim exercises that case). -/
def fracDigits : CalcRat → Nat → String
  | _, 0 => ""
  | f, Nat.succ fuel =>
      if f.num = 0 then ""
      else
        let f10 := f.mul (.ofNat 10)
        let d : Nat := f10.num.toNat / f10.den
        Nat.repr d ++ fracDigits (f10.sub (.ofNat d)) fuel

/-- Decimal string of a non-negative rational: integer part, then a dot
and the fractional digits when the fractional part is non-zero. -/
def ratToStringNN (q : CalcRat) : String :=
  let ip : Nat := q.num.toNat / q.den
  let frac : CalcRat := q.sub (.ofNat ip)
  if frac.num = 0 then Nat.repr ip
  else Nat.repr ip ++ "." ++ fracDigits frac 100

/-- Decimal string of a rational, with a leading minus sign when
negative. -/
def ratToString (q : CalcRat) : String :=
  if q.num < 0 then "-" ++ ratToStringNN q.neg else ratToStringNN q

/-- JavaScript number-to-string conversion, as used by the template
literal on lines 108-110 of `src/src/App.tsx`. -/
def jsToString : JSNum → String
  | .nan => "NaN"
  | .posInf => "Infinity"
  | .negInf => "-Infinity"
  | .num q => ratToString q

/-- The longest leading run of decimal digits of a character list,
returned as digit values together with the rest of the list. -/
def takeDigits : List Char → List Nat × List Char
  | [] => ([], [])
  | c :: cs =>
      if c.isDigit then
        let r := takeDigits cs
        ((c.toNat - 48) :: r.1, r.2)
      else ([], c :: cs)

/-- The natural number denoted by a list of decimal digit values. -/
def digitsToNat (ds : List Nat) : Nat := ds.foldl (fun a d => a * 10 + d) 0

/-- Whether a character list starts with the literal `Infinity`,
recognised by `parseFloat`. -/
def startsWithInfinity : List Char → Bool
  | 'I' :: 'n' :: 'f' :: 'i' :: 'n' :: 'i' :: 't' :: 'y' :: _ => true
  | _ => false

/-- Core of `parseFloat` on a character list: optional sign, `Infinity`
literal, otherwise the longest `digits [. digits]` prefix; `NaN` when no
digit is found.  (Exponent notation never arises from `jsToString`, so it
is not modelled.) -/
def parseFloatCore (cs : List Char) : JSNum :=
  let sr : Bool × List Char :=
    match cs with
    | '-' :: r => (true, r)
    | '+' :: r => (false, r)
    | _ => (false, cs)
  let neg := sr.1
  let cs1 := sr.2
  if startsWithInfinity cs1 then
    if neg then .negInf else .posInf
  else
    let ipr := takeDigits cs1
    let ip := ipr.1
    let fp : List Nat :=
      match ipr.2 with
      | '.' :: r => (takeDigits r).1
      | _ => []
    if ip.isEmpty && fp.isEmpty then .nan
    else
      let v : CalcRat :=
        (CalcRat.ofNat (digitsToNat ip)).add (.make (digitsToNat fp) (10 ^ fp.length))
      .num (if neg then v.neg else v)

/-- JavaScript `parseFloat` (line 107 of `src/src/App.tsx`). -/
def jsParseFloat (s : String) : JSNum := parseFloatCore s.toList

/-- The calculator state (`State`, lines 17-32 of `src/src/App.tsx`). -/
structure State where
  displayValue : JSNum
  calculatedValue : JSNum
  lastOperation : String
  shouldAddComma : Bool
  shouldResetDisplay : Bool
deriving DecidableEq, Repr

/-- `initialState` (lines 62-68 of `src/src/App.tsx`). -/
def initialState : State :=
  { displayValue := .num (.ofNat 0)
    calculatedValue := .num (.ofNat 0)
    lastOperation := ""
    shouldAddComma := false
    shouldResetDisplay := false }

/-- The four arithmetic action tags (`CalcAction`, line 14). -/
inductive CalcAction where
  | subtract : CalcAction
  | add : CalcAction
  | multiply : CalcAction
  | divide : CalcAction
deriving DecidableEq, Repr

/-- The string tag of a `CalcAction`. -/
def calcTag : CalcAction → String
  | .subtract => "subtract"
  | .add => "add"
  | .multiply => "multiply"
  | .divide => "divide"

/-- The `calcOperations` record (lines 76-84): each arithmetic tag's
binary operation. -/
def calcOperations : CalcAction → JSNum → JSNum → JSNum
  | .add => JSNum.add
  | .subtract => JSNum.sub
  | .multiply => JSNum.mul
  | .divide => JSNum.div

/-- The `isCalcAction` type guard (lines 73-74) together with the
narrowing it performs in TypeScript: `some op` exactly when the string is
one of the four arithmetic tags. -/
def toCalcAction (input : String) : Option CalcAction :=
  if input = "subtract" then some .subtract
  else if input = "add" then some .add
  else if input = "multiply" then some .multiply
  else if input = "divide" then some .divide
  else none

/-- Boolean form of the `isCalcAction` type guard (lines 73-74). -/
def isCalcAction (input : String) : Bool := (toCalcAction input).isSome

/-- Dispatched actions (`StateAction`, lines 35-43): a digit input with
its numeric payload, one of the four arithmetic operators, equals, comma
(decimal point) or clear. -/
inductive StateAction where
  | input : Nat → StateAction
  | operator : CalcAction → StateAction
  | equals : StateAction
  | comma : StateAction
  | clear : StateAction
deriving DecidableEq, Repr

/-- The `action.type` string of a dispatched action. -/
def actionType : StateAction → String
  | .input _ => "input"
  | .operator op => calcTag op
  | .equals => "equals"
  | .comma => "comma"
  | .clear => "clear"

/-- The reducer (lines 87-168 of `src/src/App.tsx`): the calculator's
entire transition function. -/
def reducer (previousState : State) (action : StateAction) : State :=
  let updatedState : State :=
    { previousState with
      lastOperation := actionType action
      shouldAddComma := false
      shouldResetDisplay := false }
  match action with
  | .comma =>
      { updatedState with
        lastOperation := previousState.lastOperation
        shouldAddComma := true }
  | .input payload =>
      let newValue :=
        if previousState.shouldResetDisplay then JSNum.num (.ofNat payload)
        else
          jsParseFloat
            (jsToString previousState.displayValue ++
              (if previousState.shouldAddComma then "." else "") ++ Nat.repr payload)
      { updatedState with
        lastOperation := previousState.lastOperation
        displayValue := newValue }
  | .operator op =>
      if previousState.lastOperation = "equals" then
        { updatedState with shouldResetDisplay := true }
      else if previousState.calculatedValue.isTruthy = false then
        { updatedState with
          calculatedValue := previousState.displayValue
          shouldResetDisplay := true }
      else
        let newValue := calcOperations op previousState.calculatedValue previousState.displayValue
        { updatedState with
          displayValue := newValue
          calculatedValue := newValue
          shouldResetDisplay := true }
  | .equals =>
      let newValue :=
        match toCalcAction previousState.lastOperation with
        | some op => calcOperations op previousState.calculatedValue previousState.displayValue
        | none => previousState.calculatedValue
      { updatedState with
        displayValue := newValue
        calculatedValue := newValue
        shouldResetDisplay := true }
  | .clear => initialState

/-- Dispatching a whole sequence of actions, left to right. -/
def run (s : State) (l : List StateAction) : State := l.foldl reducer s

/-- Events that only enter the number being typed: digit input and the
decimal point.  These are the two reducer branches that restore
`lastOperation` to its previous value. -/
def isEntry : StateAction → Bool
  | .input _ => true
  | .comma => true
  | .operator _ => false
  | .equals => false
  | .clear => false

/-- A digit or comma event leaves `lastOperation` untouched. -/
theorem reducer_entry_lastOperation (s : State) (a : StateAction)
    (h : isEntry a = true) : (reducer s a).lastOperation = s.lastOperation := by
  cases a <;> simp [isEntry] at h <;> rfl

/-- A sequence of digit and comma events leaves `lastOperation`
untouched. -/
theorem run_entry_lastOperation :
    ∀ (l : List StateAction) (s : State), l.all isEntry = true →
      (run s l).lastOperation = s.lastOperation := by
  intro l
  induction l with
  | nil => intro s _; rfl
  | cons a t ih =>
      intro s h
      have hh := List.all_eq_true.mp h
      have ha : isEntry a = true := hh a (List.mem_cons_self a t)
      have ht : t.all isEntry = true :=
        List.all_eq_true.mpr (fun x hx => hh x (List.mem_cons_of_mem a hx))
      calc (run s (a :: t)).lastOperation
          = (run (reducer s a) t).lastOperation := rfl
        _ = (reducer s a).lastOperation := ih (reducer s a) ht
        _ = s.lastOperation := reducer_entry_lastOperation s a ha

/-- No reducer result has `shouldAddComma` and `shouldResetDisplay` both
set. -/
theorem reducer_flags_exclusive (s : State) (a : StateAction) :
    ((reducer s a).shouldAddComma && (reducer s a).shouldResetDisplay) = false := by
  cases a with
  | input d => rfl
  | comma => rfl
  | equals => rfl
  | clear => rfl
  | operator op =>
      by_cases h1 : s.lastOperation = "equals"
      · simp [reducer, h1]
      · by_cases h2 : s.calculatedValue.isTruthy = false <;> simp [reducer, h1, h2]

/-- C1: when `lastOperation` is not `"equals"` and `calculatedValue` is
truthy, dispatching an operator folds with the NEWLY dispatched operator:
the result has `displayValue = calculatedValue = op(calculatedValue,
displayValue)`, `shouldResetDisplay = true`, `shouldAddComma = false` and
`lastOperation = op`; consequently the sequence `2, +, 3, +, 4, =` from
the initial state displays `9`. -/
theorem reducer_operator_folds (s : State) (op : CalcAction)
    (hne : s.lastOperation ≠ "equals") (ht : s.calculatedValue.isTruthy = true) :
    reducer s (.operator op) =
      { s with
        displayValue := calcOperations op s.calculatedValue s.displayValue
        calculatedValue := calcOperations op s.calculatedValue s.displayValue
        lastOperation := calcTag op
        shouldAddComma := false
        shouldResetDisplay := true } ∧
    (run initialState
        [.input 2, .operator .add, .input 3, .operator .add, .input 4,
          .equals]).displayValue = .num (.ofNat 9) := by
  constructor
  · simp [reducer, actionType, hne, ht]
  · decide

/-- Witness for C1 at the state `display 3, calculated 2, last "add"`. -/
theorem reducer_operator_folds_witness :
    reducer
        { displayValue := .num (.ofNat 3)
          calculatedValue := .num (.ofNat 2)
          lastOperation := "add"
          shouldAddComma := false
          shouldResetDisplay := true } (.operator .add) =
      { displayValue := .num (.ofNat 5)
        calculatedValue := .num (.ofNat 5)
        lastOperation := "add"
        shouldAddComma := false
        shouldResetDisplay := true } := by
  have h := reducer_operator_folds
    { displayValue := .num (.ofNat 3)
      calculatedValue := .num (.ofNat 2)
      lastOperation := "add"
      shouldAddComma := false
      shouldResetDisplay := true } .add (by decide) (by decide)
  exact h.1.trans (by decide)

/-- C2: dispatching equals with a pending arithmetic operator applies it
to `(calculatedValue, displayValue)` and stores the result in both value
fields, with `shouldResetDisplay = true` and `lastOperation = "equals"`;
with no pending operator the same updates happen with
`newValue = calculatedValue`, overwriting the display. -/
theorem reducer_equals_spec (s : State) :
    (∀ op : CalcAction, toCalcAction s.lastOperation = some op →
        reducer s .equals =
          { s with
            displayValue := calcOperations op s.calculatedValue s.displayValue
            calculatedValue := calcOperations op s.calculatedValue s.displayValue
            lastOperation := "equals"
            shouldAddComma := false
            shouldResetDisplay := true }) ∧
    (toCalcAction s.lastOperation = none →
        reducer s .equals =
          { s with
            displayValue := s.calculatedValue
            calculatedValue := s.calculatedValue
            lastOperation := "equals"
            shouldAddComma := false
            shouldResetDisplay := true }) := by
  constructor
  · intro op h
    simp [reducer, actionType, h]
  · intro h
    simp [reducer, actionType, h]

/-- Witness for C2 at the state `display 3, calculated 5, last "add"`. -/
theorem reducer_equals_spec_witness :
    reducer
        { displayValue := .num (.ofNat 3)
          calculatedValue := .num (.ofNat 5)
          lastOperation := "add"
          shouldAddComma := false
          shouldResetDisplay := true } .equals =
      { displayValue := .num (.ofNat 8)
        calculatedValue := .num (.ofNat 8)
        lastOperation := "equals"
        shouldAddComma := false
        shouldResetDisplay := true } := by
  have h := (reducer_equals_spec
    { displayValue := .num (.ofNat 3)
      calculatedValue := .num (.ofNat 5)
      lastOperation := "add"
      shouldAddComma := false
      shouldResetDisplay := true }).1 .add (by decide)
  exact h.trans (by decide)

/-- C3: clear returns the exact initial state, whatever the previous
state was. -/
theorem reducer_clear_resets (s : State) : reducer s .clear = initialState := rfl

/-- C4: `5, +, 3, =` displays `8` with `lastOperation = "equals"`, and a
second equals leaves the display at `8` (the no-operator branch returns
`calculatedValue`). -/
theorem repeated_equals_keeps_display :
    (run initialState [.input 5, .operator .add, .input 3, .equals]).displayValue
        = .num (.ofNat 8) ∧
    (run initialState [.input 5, .operator .add, .input 3, .equals]).lastOperation
        = "equals" ∧
    (run initialState [.input 5, .operator .add, .input 3, .equals, .equals]).displayValue
        = .num (.ofNat 8) := by
  refine ⟨by decide, by decide, by decide⟩

/-- C5: a digit event overwrites the display with the digit when
`shouldResetDisplay` is set, and otherwise re-parses the concatenation of
the displayed number, an optional decimal point (iff `shouldAddComma`)
and the digit; `lastOperation` is unchanged and both flags become false.
From the initial state `1, ., 5` displays `1.5`. -/
theorem reducer_input_spec (s : State) (d : Nat) (hd : d ≤ 9) :
    reducer s (.input d) =
      { s with
        displayValue :=
          if s.shouldResetDisplay then JSNum.num (.ofNat d)
          else
            jsParseFloat
              (jsToString s.displayValue ++
                (if s.shouldAddComma then "." else "") ++ Nat.repr d)
        shouldAddComma := false
        shouldResetDisplay := false } ∧
    (run initialState [.input 1, .comma, .input 5]).displayValue = .num (.make 3 2) := by
  exact ⟨rfl, by decide⟩

/-- Witness for C5 at the initial state with digit `1`. -/
theorem reducer_input_spec_witness :
    reducer initialState (.input 1) =
      { initialState with displayValue := .num (.ofNat 1) } := by
  have h := (reducer_input_spec initialState 1 (by decide)).1
  exact h.trans (by decide)

/-- C6: when `lastOperation` is not `"equals"` and `calculatedValue` is
falsy, dispatching an operator seeds the chain instead of folding:
`calculatedValue := displayValue`, `shouldResetDisplay := true`,
`lastOperation := op`, and `displayValue` is unchanged. -/
theorem reducer_operator_seeds (s : State) (op : CalcAction)
    (hne : s.lastOperation ≠ "equals") (hf : s.calculatedValue.isTruthy = false) :
    reducer s (.operator op) =
      { s with
        calculatedValue := s.displayValue
        lastOperation := calcTag op
        shouldAddComma := false
        shouldResetDisplay := true } := by
  simp [reducer, actionType, hne, hf]

/-- Witness for C6 at the initial state (a genuine zero
`calculatedValue`). -/
theorem reducer_operator_seeds_witness :
    reducer { initialState with displayValue := .num (.ofNat 7) } (.operator .multiply) =
      { displayValue := .num (.ofNat 7)
        calculatedValue := .num (.ofNat 7)
        lastOperation := "multiply"
        shouldAddComma := false
        shouldResetDisplay := true } := by
  have h := reducer_operator_seeds
    { initialState with displayValue := .num (.ofNat 7) } .multiply (by decide) (by decide)
  exact h.trans (by decide)

/-- C7: division by zero does not fail: a positive value divided by zero
is `+Infinity`, a negative one is `-Infinity`, `0 / 0` is `NaN`, and the
sequence `5, ÷, 0, =` from the initial state displays `+Infinity`. -/
theorem divide_by_zero_infinity :
    (∀ q : CalcRat, 0 < q.num →
        JSNum.div (.num q) (.num (.ofNat 0)) = .posInf) ∧
    (∀ q : CalcRat, q.num < 0 →
        JSNum.div (.num q) (.num (.ofNat 0)) = .negInf) ∧
    JSNum.div (.num (.ofNat 0)) (.num (.ofNat 0)) = .nan ∧
    (run initialState
        [.input 5, .operator .divide, .input 0, .equals]).displayValue = .posInf := by
  refine ⟨?_, ?_, by decide, by decide⟩
  · intro q hq
    have hq0 : q.num ≠ 0 := by omega
    simp [JSNum.div, CalcRat.ofNat, hq0, hq]
  · intro q hq
    have hq0 : q.num ≠ 0 := by omega
    have hq1 : ¬ 0 < q.num := by omega
    simp [JSNum.div, CalcRat.ofNat, hq0, hq1]

/-- Witness for C7 at `5 / 0`. -/
theorem divide_by_zero_infinity_witness :
    JSNum.div (.num (.ofNat 5)) (.num (.ofNat 0)) = .posInf :=
  divide_by_zero_infinity.1 (.ofNat 5) (by decide)

/-- C8: the comma event only sets `shouldAddComma` and clears
`shouldResetDisplay`; `displayValue`, `calculatedValue` and
`lastOperation` keep their previous values. -/
theorem reducer_comma_spec (s : State) :
    reducer s .comma = { s with shouldAddComma := true, shouldResetDisplay := false } := rfl

/-- C9: in every state reachable from the initial state,
`shouldAddComma` and `shouldResetDisplay` are never both true, and indeed
every single reducer step establishes this exclusion. -/
theorem flags_never_both_true :
    (∀ l : List StateAction,
        ((run initialState l).shouldAddComma &&
          (run initialState l).shouldResetDisplay) = false) ∧
    (∀ (s : State) (a : StateAction),
        ((reducer s a).shouldAddComma && (reducer s a).shouldResetDisplay) = false) := by
  have hrun : ∀ (l : List StateAction) (s : State),
      (s.shouldAddComma && s.shouldResetDisplay) = false →
      ((run s l).shouldAddComma && (run s l).shouldResetDisplay) = false := by
    intro l
    induction l with
    | nil => intro s hs; exact hs
    | cons a t ih =>
        intro s _
        exact ih (reducer s a) (reducer_flags_exclusive s a)
  exact ⟨fun l => hrun l initialState rfl, reducer_flags_exclusive⟩

/-- C10: after an equals, any sequence of digit and comma events keeps
`lastOperation = "equals"`, so a following operator takes the
start-new-chain branch: it keeps both value fields, sets
`shouldResetDisplay` and records the operator, performing no fold. -/
theorem equals_sticky_under_entry (s : State) (l : List StateAction) (op : CalcAction)
    (hl : l.all isEntry = true) (he : s.lastOperation = "equals") :
    (run s l).lastOperation = "equals" ∧
    reducer (run s l) (.operator op) =
      { run s l with
        lastOperation := calcTag op
        shouldAddComma := false
        shouldResetDisplay := true } := by
  have hlast : (run s l).lastOperation = "equals" :=
    (run_entry_lastOperation l s hl).trans he
  refine ⟨hlast, ?_⟩
  simp [reducer, actionType, hlast]

/-- Witness for C10: digits and a comma after an equals, then an
operator. -/
theorem equals_sticky_under_entry_witness :
    (run
        { displayValue := .num (.ofNat 8)
          calculatedValue := .num (.ofNat 8)
          lastOperation := "equals"
          shouldAddComma := false
          shouldResetDisplay := true } [.input 7, .comma, .input 5]).lastOperation
      = "equals" := by
  have h := equals_sticky_under_entry
    { displayValue := .num (.ofNat 8)
      calculatedValue := .num (.ofNat 8)
      lastOperation := "equals"
      shouldAddComma := false
      shouldResetDisplay := true } [.input 7, .comma, .input 5] .multiply (by decide) rfl
  exact h.1
